import Mathlib

/-!
Verification of the `simple_caching` memoization decorator
(`simple_caching.py`): a shallow embedding of its cache-key derivation
and cache-entry lifecycle, with theorems about the embedded code.

Python values are modelled by the inductive type `PyVal`; the filesystem
by a list of existing directories plus an association list from paths to
stored (already decoded) JSON values — the gzip/codecs/json byte codecs
are external collaborators, so a stored file is modelled by the value it
decodes to, and `json.dump` succeeds exactly on JSON-representable
values.  The md5 hexdigest is an external primitive and is passed in as
an abstract function `String → String`.
-/

namespace SimpleCaching

/-- The five Python type objects that populate the module-level set
`_OK_JSON = set((dict, list, str, int, float))`. -/
inductive PyType
  | dict
  | list
  | str
  | int
  | float
deriving DecidableEq, Repr

/-- Python values, as far as the decorator inspects them.  `obj` is a
generic Python object carrying an optional `cachedir` attribute (and an
identity tag); `typeObj` is one of the five type objects in `_OK_JSON`.
Floats are carried as rationals; their exact textual repr is abstracted. -/
inductive PyVal
  | none
  | bool (b : Bool)
  | int (n : Int)
  | float (q : Rat)
  | str (s : String)
  | list (xs : List PyVal)
  | dict (kvs : List (String × PyVal))
  | typeObj (t : PyType)
  | obj (cachedirAttr : Option String) (tag : String)

/-- Python truthiness (`if not x`), as used on `cachedir`,
`cache_comment` and `force_refresh`. -/
def pyTruthy : PyVal → Bool
  | .none => false
  | .bool b => b
  | .int n => n != 0
  | .float q => q != 0
  | .str s => s != ""
  | .list xs => !xs.isEmpty
  | .dict kvs => !kvs.isEmpty
  | .typeObj _ => true
  | .obj _ _ => true

/-- Python equality of a value against a string literal, as in
`mode == 'hash'` or `cache_format == 'json'`: true exactly when the
value is that string. -/
def pyEqStr (v : PyVal) (s : String) : Bool :=
  match v with
  | .str t => t == s
  | _ => false

/-- Attribute probe `args[0].cachedir`: succeeds only on an object
whose `cachedir` attribute is set; any other value raises
AttributeError, which the source catches. -/
def getattrCachedir : PyVal → Option String
  | .obj (some d) _ => some d
  | _ => Option.none

/-- Errors surfaced by the decorator, following the spec's taxonomy:
the two `sys.exit(1)` sites become `configurationError` (bad mode or
format) and `directoryError` (unresolvable directory); `indexError` is
`args[0]` on an empty tuple; `typeError` covers both the unhashable
membership test and `json.dump` of a non-representable value;
`unboundLocal` is the use of the never-assigned `name` local. -/
inductive PyError
  | configurationError
  | directoryError
  | indexError
  | typeError
  | unboundLocal
  | ioError
deriving DecidableEq, Repr

/-- Membership test `v in _OK_JSON` from the source.  `_OK_JSON` is a
set of the five *type objects*, so the test compares the value itself
against those type objects: it is true only for a type object, false
for every string/number/bool/None/object, and raises TypeError for
unhashable values (lists and dicts). -/
def okJsonMember : PyVal → Except PyError Bool
  | .list _ => .error .typeError
  | .dict _ => .error .typeError
  | .typeObj _ => .ok true
  | _ => .ok false

/-- List comprehension `[a for a in args if a in _OK_JSON]`, evaluated
left to right with the first TypeError propagating. -/
def filterArgsOk : List PyVal → Except PyError (List PyVal)
  | [] => .ok []
  | a :: rest => do
    let b ← okJsonMember a
    let tl ← filterArgsOk rest
    return if b then a :: tl else tl

/-- Dict comprehension over kwargs keeping entries whose value passes
the `_OK_JSON` membership test. -/
def filterKwargsOk : List (String × PyVal) → Except PyError (List (String × PyVal))
  | [] => .ok []
  | (k, v) :: rest => do
    let b ← okJsonMember v
    let tl ← filterKwargsOk rest
    return if b then (k, v) :: tl else tl

/-- JSON string quoting used by the serializer (escapes quote and
backslash; other escapes are not exercised by the decorator). -/
def jsonQuote (s : String) : String :=
  let esc (c : Char) : String :=
    if c = Char.ofNat 34 then "\\\""
    else if c = Char.ofNat 92 then "\\\\"
    else String.singleton c
  "\"" ++ String.join (s.toList.map esc) ++ "\""

/-- Comma-space separator of `json.dumps` default formatting. -/
def joinComma (parts : List String) : String :=
  String.intercalate ", " parts

mutual

/-- Model of `json.dumps`: renders JSON-representable values and raises
TypeError on type objects and generic objects (exactly the values the
json encoder rejects).  Float formatting is abstracted by the rational
rendering. -/
def pyJsonDumps : PyVal → Except PyError String
  | .none => .ok "null"
  | .bool b => .ok (if b then "true" else "false")
  | .int n => .ok (toString n)
  | .float q => .ok (toString q)
  | .str s => .ok (jsonQuote s)
  | .list xs => do
    let parts ← dumpsList xs
    return "[" ++ joinComma parts ++ "]"
  | .dict kvs => do
    let parts ← dumpsKVs kvs
    return "\x7b" ++ joinComma parts ++ "\x7d"
  | .typeObj _ => .error .typeError
  | .obj _ _ => .error .typeError

/-- Serialize list elements in order, first failure propagating. -/
def dumpsList : List PyVal → Except PyError (List String)
  | [] => .ok []
  | v :: vs => do
    let s ← pyJsonDumps v
    let rest ← dumpsList vs
    return s :: rest

/-- Serialize dict entries in order, first failure propagating. -/
def dumpsKVs : List (String × PyVal) → Except PyError (List String)
  | [] => .ok []
  | (k, v) :: kvs => do
    let s ← pyJsonDumps v
    let rest ← dumpsKVs kvs
    return (jsonQuote k ++ ": " ++ s) :: rest

end

/-- Lines 156-160: the canonical representation
`json.dumps({'args': [...filtered args...], 'kwargs': {...filtered kwargs...}})`
that is hashed in by-hash mode. -/
def toHashString (args : List PyVal) (kwargs : List (String × PyVal)) :
    Except PyError String := do
  let fa ← filterArgsOk args
  let fk ← filterKwargsOk kwargs
  pyJsonDumps (.dict [("args", .list fa), ("kwargs", .dict fk)])

mutual

/-- Whether `json.dump` succeeds on a value: JSON-representable values
(None, bools, numbers, strings, and lists/dicts thereof). -/
def serializable : PyVal → Bool
  | .none => true
  | .bool _ => true
  | .int _ => true
  | .float _ => true
  | .str _ => true
  | .list xs => serializableList xs
  | .dict kvs => serializableKVs kvs
  | .typeObj _ => false
  | .obj _ _ => false

/-- All elements of a list are serializable. -/
def serializableList : List PyVal → Bool
  | [] => true
  | v :: vs => serializable v && serializableList vs

/-- All values of a dict are serializable. -/
def serializableKVs : List (String × PyVal) → Bool
  | [] => true
  | (_, v) :: kvs => serializable v && serializableKVs kvs

end

/-- Filesystem state: the set of existing directories and the files,
an association list from path to the JSON value the file decodes to
(byte-level codecs being external, a file is modelled by its decoded
content). -/
structure FS where
  dirs : List String
  files : List (String × PyVal)

/-- First-match lookup of a file by path. -/
def lookupKV (files : List (String × PyVal)) (p : String) : Option PyVal :=
  match files with
  | [] => Option.none
  | (q, v) :: rest => if q = p then some v else lookupKV rest p

/-- Write (create or overwrite) the file at a path. -/
def insertFile (files : List (String × PyVal)) (p : String) (v : PyVal) :
    List (String × PyVal) :=
  (p, v) :: files.filter (fun kv => kv.1 != p)

/-- Delete the file at a path (`os.remove`). -/
def removeFile (files : List (String × PyVal)) (p : String) :
    List (String × PyVal) :=
  files.filter (fun kv => kv.1 != p)

/-- Model of `os.path.exists`: true on an existing directory or file. -/
def pathExistsFS (fs : FS) (p : String) : Bool :=
  fs.dirs.contains p || (lookupKV fs.files p).isSome

/-- Model of `os.path.join` (posix): the right component wins when
absolute, otherwise the components are joined with a slash. -/
def ospath_join (a b : String) : String :=
  if b.startsWith "/" then b
  else if a = "" || a.endsWith "/" then a ++ b
  else a ++ "/" ++ b

/-- Model of `kwargs.pop(key, default)`: the stored value with the key
removed when present, the default and unchanged kwargs otherwise.
Keyword-argument dictionaries cannot repeat a key, so removal deletes
every occurrence. -/
def popKw (k : String) (dft : PyVal) (kwargs : List (String × PyVal)) :
    PyVal × List (String × PyVal) :=
  match lookupKV kwargs k with
  | some v => (v, kwargs.filter (fun kv => kv.1 != k))
  | Option.none => (dft, kwargs)

/-- The five call-time override keyword names the wrapper pops. -/
def overrideKeys : List String :=
  ["cachedir", "cache_comment", "force_refresh", "mode", "cache_format"]

/-- A keyword mapping that carries none of the call-time overrides. -/
def noOverrides (kwargs : List (String × PyVal)) : Prop :=
  ∀ k ∈ overrideKeys, lookupKV kwargs k = Option.none

/-- ASCII punctuation, exactly Python's `string.punctuation`
(codepoints 0x21-0x2F, 0x3A-0x40, 0x5B-0x60, 0x7B-0x7E). -/
def isPunct (c : Char) : Bool :=
  let n := c.toNat
  (0x21 ≤ n && n ≤ 0x2F) || (0x3A ≤ n && n ≤ 0x40) ||
    (0x5B ≤ n && n ≤ 0x60) || (0x7B ≤ n && n ≤ 0x7E)

/-- Lines 172-173: `while cachename[0] in punctuation: cachename = cachename[1:]`.
Modelled by dropping the leading punctuation run; this agrees with the
loop whenever some character is not punctuation, which always holds
here since the string ends in the alphanumeric extension. -/
def stripLeadingPunct (s : String) : String :=
  (s.toList.dropWhile isPunct).asString

/-- Lines 174-175: the symmetric trailing-punctuation loop. -/
def stripTrailingPunct (s : String) : String :=
  (s.toList.reverse.dropWhile isPunct).reverse.asString

/-- Python `str()` rendering, used by `'_%s' % cache_comment` when the
comment is not already a string (container renderings abbreviated; in
practice comments are strings, on which this is exact). -/
def pyStrOf : PyVal → String
  | .none => "None"
  | .bool b => if b then "True" else "False"
  | .int n => toString n
  | .float q => toString q
  | .str s => s
  | .list _ => "[...]"
  | .dict _ => "\x7b...\x7d"
  | .typeObj _ => "<type>"
  | .obj _ tag => tag

/-- Lines 166-175: build the cache file name.  The comment (with a
joining underscore when truthy) and the `.cache.<ext>` suffix are
appended first, and the leading/trailing punctuation strip runs on the
full resulting string. -/
def buildCachename (name : String) (ccV : PyVal) (ext : String) : String :=
  let cachename :=
    name ++ (if pyTruthy ccV then "_" ++ pyStrOf ccV else "") ++ ".cache." ++ ext
  stripTrailingPunct (stripLeadingPunct cachename)

/-- Static context of one decorated method: its `__name__`, the wrapped
computation itself (as a pure function of the delegated arguments), the
external md5-hexdigest primitive, and the current working directory. -/
structure Ctx where
  methodName : String
  method : List PyVal → List (String × PyVal) → PyVal
  hashHex : String → String
  cwd : String

/-- The decoration-time locals captured by `caching_decorator`
(lines 92-99), with `local_mode` already defaulted to `'hash'`. -/
structure LocalCfg where
  local_cachedir : Option String
  local_cache_comment : String
  local_force_refresh : Bool
  local_cache_format : String
  local_mode : String

/-- Observable outcome of one call through the wrapper: the returned
value or error, the final file map, the delegated invocations of the
wrapped computation, the cache files opened for reading, and the entry
path composed at line 176 (when reached). -/
structure Outcome where
  result : Except PyError PyVal
  files : List (String × PyVal)
  calls : List (List PyVal × List (String × PyVal))
  reads : List String
  path : Option String

/-- Lines 153-161 as a function of the popped `mode` value: by-name
returns the method name, by-hash the hexdigest of the canonical
representation; any other mode leaves the `name` local unassigned,
modelled by `none`. -/
def deriveName (ctx : Ctx) (modeV : PyVal) (args : List PyVal)
    (kwargs : List (String × PyVal)) : Except PyError (Option String) :=
  if pyEqStr modeV "method-name" then .ok (some ctx.methodName)
  else if pyEqStr modeV "hash" then
    match toHashString args kwargs with
    | .error e => .error e
    | .ok s => .ok (some (ctx.hashHex s))
  else .ok none

/-- Lines 131-136: directory resolution with the cwd-relative retry.
A non-string truthy cachedir makes `os.path.exists` raise TypeError. -/
def resolve_cachedir (ctx : Ctx) (fs : FS) (cachedirV : PyVal) :
    Except PyError String :=
  match cachedirV with
  | .str d0 =>
    if pathExistsFS fs d0 then .ok d0
    else
      let d1 := ospath_join ctx.cwd d0
      if pathExistsFS fs d1 then .ok d1 else .error .directoryError
  | _ => .error .typeError

/-- Lines 179-194: hit/miss decision and entry IO.  On a hit the file
is opened and decoded; on a miss or forced refresh the computation
runs, and `json.dump` either persists its result or (on TypeError) the
partially-written file is removed and the error re-raised. -/
def cacheStep (ctx : Ctx) (fs : FS) (cachepath : String)
    (force_refresh : Bool) (args : List PyVal)
    (kwargs : List (String × PyVal)) : Outcome :=
  if pathExistsFS fs cachepath && !force_refresh then
    match lookupKV fs.files cachepath with
    | some v => ⟨.ok v, fs.files, [], [cachepath], some cachepath⟩
    | Option.none => ⟨.error .ioError, fs.files, [], [cachepath], some cachepath⟩
  else
    let tocache := ctx.method args kwargs
    if serializable tocache then
      ⟨.ok tocache, insertFile fs.files cachepath tocache,
        [(args, kwargs)], [], some cachepath⟩
    else
      ⟨.error .typeError, removeFile fs.files cachepath,
        [(args, kwargs)], [], some cachepath⟩

/-- Default for the `cachedir` pop: the decoration-time directory as a
Python value (`None` when unconfigured). -/
def cfgCachedirDefault (cfg : LocalCfg) : PyVal :=
  match cfg.local_cachedir with
  | some d => PyVal.str d
  | Option.none => PyVal.none

/-- Lines 108-194: the wrapper around one call, transcribed stage by
stage: the receiver-attribute probe with IndexError on empty args, the
pass-through return when no cachedir resolves, the four override pops,
directory resolution, format selection, key derivation, name
composition and the hit/miss step. -/
def method_wrapper (ctx : Ctx) (cfg : LocalCfg) (fs : FS)
    (args : List PyVal) (kwargs0 : List (String × PyVal)) : Outcome :=
  match args with
  | [] => ⟨.error .indexError, fs.files, [], [], Option.none⟩
  | a :: _ =>
    let (cachedirV, kwargs1) :=
      match getattrCachedir a with
      | some d => (PyVal.str d, kwargs0)
      | Option.none => popKw "cachedir" (cfgCachedirDefault cfg) kwargs0
    if !pyTruthy cachedirV then
      ⟨.ok (ctx.method args kwargs1), fs.files, [(args, kwargs1)], [], Option.none⟩
    else
      let (ccV, kwargs2) := popKw "cache_comment" (.str cfg.local_cache_comment) kwargs1
      let (frV, kwargs3) := popKw "force_refresh" (.bool cfg.local_force_refresh) kwargs2
      let modeDefault := if cfg.local_mode = "" then "hash" else cfg.local_mode
      let (modeV, kwargs4) := popKw "mode" (.str modeDefault) kwargs3
      match resolve_cachedir ctx fs cachedirV with
      | .error e => ⟨.error e, fs.files, [], [], Option.none⟩
      | .ok d =>
        let (fmtV, kwargs5) := popKw "cache_format" (.str cfg.local_cache_format) kwargs4
        let extRes : Except PyError String :=
          if pyEqStr fmtV "json" then .ok "json"
          else if pyEqStr fmtV "gzip" then .ok "gz"
          else .error .configurationError
        match extRes with
        | .error e => ⟨.error e, fs.files, [], [], Option.none⟩
        | .ok ext =>
          match deriveName ctx modeV args kwargs5 with
          | .error e => ⟨.error e, fs.files, [], [], Option.none⟩
          | .ok Option.none => ⟨.error .unboundLocal, fs.files, [], [], Option.none⟩
          | .ok (some name) =>
            let cachepath := ospath_join d (buildCachename name ccV ext)
            cacheStep ctx fs cachepath (pyTruthy frV) args kwargs5

/-- Lines 92-105: decoration-time capture and mode validation.  A
`None` mode defaults to `'hash'`; a mode outside the two accepted
values hits the `sys.exit(1)` site, modelled as ConfigurationError. -/
def caching_decorator_setup (cachedir : Option String) (mode : Option String)
    (cache_comment : Option String) (force_refresh : Bool)
    (cache_format : String) : Except PyError LocalCfg :=
  let local_mode := mode.getD "hash"
  if local_mode ≠ "hash" ∧ local_mode ≠ "method-name" then .error .configurationError
  else .ok ⟨cachedir, cache_comment.getD "", force_refresh, cache_format, local_mode⟩

/-- End-to-end composition of decoration and one call. -/
def simple_caching_run (cachedir mode cache_comment : Option String)
    (force_refresh : Bool) (cache_format : String) (ctx : Ctx) (fs : FS)
    (args : List PyVal) (kwargs : List (String × PyVal)) : Outcome :=
  match caching_decorator_setup cachedir mode cache_comment force_refresh cache_format with
  | .error e => ⟨.error e, fs.files, [], [], Option.none⟩
  | .ok cfg => method_wrapper ctx cfg fs args kwargs

/-! Lemmas about the association-list primitives. -/

theorem lookupKV_filter_self (l : List (String × PyVal)) (k : String) :
    lookupKV (l.filter fun kv => kv.1 != k) k = Option.none := by
  induction l with
  | nil => rfl
  | cons kv rest ih =>
    by_cases h : kv.1 = k
    · simpa [List.filter_cons, h] using ih
    · simp [List.filter_cons, h, lookupKV, ih]

theorem lookupKV_filter_other (l : List (String × PyVal)) (k j : String)
    (hjk : j ≠ k) :
    lookupKV (l.filter fun kv => kv.1 != k) j = lookupKV l j := by
  induction l with
  | nil => rfl
  | cons kv rest ih =>
    obtain ⟨q, v⟩ := kv
    by_cases h : q = k
    · subst h
      have hq : q ≠ j := fun he => hjk he.symm
      simp [List.filter_cons, lookupKV, hq, ih]
    · simp only [List.filter_cons]
      simp [h, lookupKV, ih]

theorem filter_eq_of_lookupKV_none (l : List (String × PyVal)) (k : String)
    (h : lookupKV l k = Option.none) :
    (l.filter fun kv => kv.1 != k) = l := by
  induction l with
  | nil => rfl
  | cons kv rest ih =>
    by_cases hk : kv.1 = k
    · simp [lookupKV, hk] at h
    · simp only [lookupKV, if_neg hk] at h
      simp [List.filter_cons, hk, ih h]

theorem popKw_absent (k : String) (dft : PyVal) (l : List (String × PyVal))
    (h : lookupKV l k = Option.none) : popKw k dft l = (dft, l) := by
  simp [popKw, h]

theorem popKw_snd_lookup_self (k : String) (dft : PyVal)
    (l : List (String × PyVal)) :
    lookupKV (popKw k dft l).2 k = Option.none := by
  unfold popKw
  cases h : lookupKV l k with
  | none => simpa using h
  | some v => simpa using lookupKV_filter_self l k

theorem popKw_snd_lookup_other (k j : String) (dft : PyVal)
    (l : List (String × PyVal)) (hjk : j ≠ k) :
    lookupKV (popKw k dft l).2 j = lookupKV l j := by
  unfold popKw
  cases h : lookupKV l k with
  | none => rfl
  | some v => simpa using lookupKV_filter_other l k j hjk

theorem lookupKV_insertFile_self (files : List (String × PyVal)) (p : String)
    (v : PyVal) : lookupKV (insertFile files p v) p = some v := by
  simp [insertFile, lookupKV]

theorem lookupKV_removeFile_self (files : List (String × PyVal)) (p : String) :
    lookupKV (removeFile files p) p = Option.none := by
  simpa [removeFile] using lookupKV_filter_self files p

theorem lookupKV_isSome_congr (l1 l2 : List (String × PyVal)) (p : String)
    (h : l1.map Prod.fst = l2.map Prod.fst) :
    (lookupKV l1 p).isSome = (lookupKV l2 p).isSome := by
  induction l1 generalizing l2 with
  | nil => cases l2 with
    | nil => rfl
    | cons kv rest => simp at h
  | cons kv rest ih =>
    cases l2 with
    | nil => simp at h
    | cons kv2 rest2 =>
      simp only [List.map_cons, List.cons.injEq] at h
      by_cases hp : kv.1 = p
      · simp [lookupKV, hp, h.1 ▸ hp]
      · have hp2 : kv2.1 ≠ p := h.1 ▸ hp
        simp [lookupKV, hp, hp2, ih rest2 h.2]

theorem pathExistsFS_congr (fs1 fs2 : FS) (p : String)
    (hd : fs1.dirs = fs2.dirs)
    (hf : fs1.files.map Prod.fst = fs2.files.map Prod.fst) :
    pathExistsFS fs1 p = pathExistsFS fs2 p := by
  simp [pathExistsFS, hd, lookupKV_isSome_congr _ _ p hf]

theorem resolve_cachedir_congr (ctx : Ctx) (fs1 fs2 : FS) (v : PyVal)
    (hd : fs1.dirs = fs2.dirs)
    (hf : fs1.files.map Prod.fst = fs2.files.map Prod.fst) :
    resolve_cachedir ctx fs1 v = resolve_cachedir ctx fs2 v := by
  have hpe : ∀ p, pathExistsFS fs1 p = pathExistsFS fs2 p :=
    fun p => pathExistsFS_congr fs1 fs2 p hd hf
  cases v <;> simp only [resolve_cachedir, hpe]

/-- Pipeline reduction: with a receiver lacking the attribute, no
call-time overrides, a configured decoration directory that exists as
given, a valid format and a mode that derives a name, the wrapper
reduces to the hit/miss step at the composed entry path. -/
theorem method_wrapper_clean (ctx : Ctx) (cfg : LocalCfg) (fs : FS)
    (a : PyVal) (rest : List PyVal) (kwargs : List (String × PyVal))
    (d ext nm : String)
    (hattr : getattrCachedir a = Option.none)
    (hno : noOverrides kwargs)
    (hcd : cfg.local_cachedir = some d)
    (hd : d ≠ "")
    (hex : pathExistsFS fs d = true)
    (hfmt : cfg.local_cache_format = "gzip" ∧ ext = "gz" ∨
            cfg.local_cache_format = "json" ∧ ext = "json")
    (hname : deriveName ctx
        (PyVal.str (if cfg.local_mode = "" then "hash" else cfg.local_mode))
        (a :: rest) kwargs = .ok (some nm)) :
    method_wrapper ctx cfg fs (a :: rest) kwargs =
      cacheStep ctx fs
        (ospath_join d (buildCachename nm (.str cfg.local_cache_comment) ext))
        cfg.local_force_refresh (a :: rest) kwargs := by
  have h1 : lookupKV kwargs "cachedir" = Option.none := hno _ (by simp [overrideKeys])
  have h2 : lookupKV kwargs "cache_comment" = Option.none := hno _ (by simp [overrideKeys])
  have h3 : lookupKV kwargs "force_refresh" = Option.none := hno _ (by simp [overrideKeys])
  have h4 : lookupKV kwargs "mode" = Option.none := hno _ (by simp [overrideKeys])
  have h5 : lookupKV kwargs "cache_format" = Option.none := hno _ (by simp [overrideKeys])
  have hd' : pyTruthy (PyVal.str d) = true := by simp [pyTruthy, hd]
  simp only [method_wrapper, hattr, cfgCachedirDefault, hcd,
    popKw_absent _ _ _ h1, popKw_absent _ _ _ h2, popKw_absent _ _ _ h3,
    popKw_absent _ _ _ h4, popKw_absent _ _ _ h5, hd', Bool.not_true,
    Bool.false_eq_true, if_false, resolve_cachedir, hex, if_true, hname]
  rcases hfmt with ⟨hf, he⟩ | ⟨hf, he⟩ <;> subst he <;> simp [hf, pyEqStr, pyTruthy]

theorem cacheStep_path (ctx : Ctx) (fs : FS) (p : String) (fr : Bool)
    (args : List PyVal) (kwargs : List (String × PyVal)) :
    (cacheStep ctx fs p fr args kwargs).path = some p := by
  unfold cacheStep
  split
  · split <;> rfl
  · by_cases h : serializable (ctx.method args kwargs) <;> simp [h]

theorem cacheStep_calls (ctx : Ctx) (fs : FS) (p : String) (fr : Bool)
    (args : List PyVal) (kwargs : List (String × PyVal)) :
    (cacheStep ctx fs p fr args kwargs).calls = [] ∨
    (cacheStep ctx fs p fr args kwargs).calls = [(args, kwargs)] := by
  unfold cacheStep
  split
  · split <;> exact Or.inl rfl
  · by_cases h : serializable (ctx.method args kwargs) <;> simp [h]

/-- Removal component of a pop, independent of the default value. -/
def dropKw (k : String) (l : List (String × PyVal)) : List (String × PyVal) :=
  (popKw k PyVal.none l).2

theorem popKw_snd_eq_dropKw (k : String) (d : PyVal) (l : List (String × PyVal)) :
    (popKw k d l).2 = dropKw k l := by
  unfold dropKw popKw
  cases lookupKV l k <;> rfl

/-- The kwargs delegated on the caching path: the original mapping with
all five override keys removed. -/
def strip5 (kwargs : List (String × PyVal)) : List (String × PyVal) :=
  dropKw "cache_format" (dropKw "mode" (dropKw "force_refresh"
    (dropKw "cache_comment" (dropKw "cachedir" kwargs))))

theorem strip5_lookup (kwargs : List (String × PyVal)) :
    ∀ k ∈ overrideKeys, lookupKV (strip5 kwargs) k = Option.none := by
  have hs : ∀ k l, lookupKV (dropKw k l) k = Option.none :=
    fun k l => popKw_snd_lookup_self k _ l
  have ho : ∀ k j l, j ≠ k → lookupKV (dropKw k l) j = lookupKV l j :=
    fun k j l h => popKw_snd_lookup_other k j _ l h
  intro k hk
  simp only [overrideKeys, List.mem_cons, List.not_mem_nil, or_false] at hk
  rcases hk with rfl | rfl | rfl | rfl | rfl
  · rw [strip5, ho "cache_format" "cachedir" _ (by decide),
      ho "mode" "cachedir" _ (by decide),
      ho "force_refresh" "cachedir" _ (by decide),
      ho "cache_comment" "cachedir" _ (by decide)]
    exact hs "cachedir" _
  · rw [strip5, ho "cache_format" "cache_comment" _ (by decide),
      ho "mode" "cache_comment" _ (by decide),
      ho "force_refresh" "cache_comment" _ (by decide)]
    exact hs "cache_comment" _
  · rw [strip5, ho "cache_format" "force_refresh" _ (by decide),
      ho "mode" "force_refresh" _ (by decide)]
    exact hs "force_refresh" _
  · rw [strip5, ho "cache_format" "mode" _ (by decide)]
    exact hs "mode" _
  · rw [strip5]
    exact hs "cache_format" _

/-- On the caching path (receiver without the attribute, truthy popped
cachedir) the wrapped computation is delegated at most once, and then
with the override-stripped kwargs. -/
theorem method_wrapper_calls_shape (ctx : Ctx) (cfg : LocalCfg) (fs : FS)
    (a : PyVal) (rest : List PyVal) (kwargs : List (String × PyVal))
    (hattr : getattrCachedir a = Option.none)
    (htr : pyTruthy (popKw "cachedir" (cfgCachedirDefault cfg) kwargs).1 = true) :
    (method_wrapper ctx cfg fs (a :: rest) kwargs).calls = [] ∨
    (method_wrapper ctx cfg fs (a :: rest) kwargs).calls
      = [(a :: rest, strip5 kwargs)] := by
  rcases hp1 : popKw "cachedir" (cfgCachedirDefault cfg) kwargs with ⟨cdv, kw1⟩
  have hkw1 : kw1 = dropKw "cachedir" kwargs := by
    have h := popKw_snd_eq_dropKw "cachedir" (cfgCachedirDefault cfg) kwargs
    rw [hp1] at h; exact h
  have htr' : pyTruthy cdv = true := by rw [hp1] at htr; exact htr
  rcases hp2 : popKw "cache_comment" (PyVal.str cfg.local_cache_comment) kw1 with ⟨ccV, kw2⟩
  have hkw2 : kw2 = dropKw "cache_comment" kw1 := by
    have h := popKw_snd_eq_dropKw "cache_comment" (PyVal.str cfg.local_cache_comment) kw1
    rw [hp2] at h; exact h
  rcases hp3 : popKw "force_refresh" (PyVal.bool cfg.local_force_refresh) kw2 with ⟨frV, kw3⟩
  have hkw3 : kw3 = dropKw "force_refresh" kw2 := by
    have h := popKw_snd_eq_dropKw "force_refresh" (PyVal.bool cfg.local_force_refresh) kw2
    rw [hp3] at h; exact h
  rcases hp4 : popKw "mode"
      (PyVal.str (if cfg.local_mode = "" then "hash" else cfg.local_mode)) kw3 with ⟨modeV, kw4⟩
  have hkw4 : kw4 = dropKw "mode" kw3 := by
    have h := popKw_snd_eq_dropKw "mode"
      (PyVal.str (if cfg.local_mode = "" then "hash" else cfg.local_mode)) kw3
    rw [hp4] at h; exact h
  rcases hp5 : popKw "cache_format" (PyVal.str cfg.local_cache_format) kw4 with ⟨fmtV, kw5⟩
  have hkw5 : kw5 = dropKw "cache_format" kw4 := by
    have h := popKw_snd_eq_dropKw "cache_format" (PyVal.str cfg.local_cache_format) kw4
    rw [hp5] at h; exact h
  have hstrip : kw5 = strip5 kwargs := by
    rw [hkw5, hkw4, hkw3, hkw2, hkw1]; rfl
  simp only [method_wrapper, hattr, hp1, htr', Bool.not_true, Bool.false_eq_true,
    if_false, hp2, hp3, hp4]
  cases hres : resolve_cachedir ctx fs cdv with
  | error e => exact Or.inl rfl
  | ok d =>
    simp only [hp5]
    by_cases hj : pyEqStr fmtV "json" = true
    · simp only [hj, if_true]
      cases hdn : deriveName ctx modeV (a :: rest) kw5 with
      | error e => exact Or.inl rfl
      | ok o =>
        cases o with
        | none => exact Or.inl rfl
        | some nm =>
          rw [← hstrip]
          exact cacheStep_calls ctx fs _ (pyTruthy frV) (a :: rest) kw5
    · simp only [hj, if_false]
      by_cases hg : pyEqStr fmtV "gzip" = true
      · simp only [hg, if_true]
        cases hdn : deriveName ctx modeV (a :: rest) kw5 with
        | error e => exact Or.inl rfl
        | ok o =>
          cases o with
          | none => exact Or.inl rfl
          | some nm =>
            rw [← hstrip]
            exact cacheStep_calls ctx fs _ (pyTruthy frV) (a :: rest) kw5
      · simp only [hg, if_false]
        exact Or.inl rfl

/-! Concrete fixtures used by witnesses and counterexamples. -/

/-- Method context with a constant JSON-representable result and the
identity standing in for the external hexdigest primitive. -/
def ctxW : Ctx := ⟨"foo", fun _ _ => PyVal.str "res", fun s => s, "/cwd"⟩

/-- Decoration locals: directory `d`, by-hash mode, gzip format. -/
def cfgW : LocalCfg := ⟨some "d", "", false, "gzip", "hash"⟩

/-- Decoration locals with no directory configured. -/
def cfgN : LocalCfg := ⟨Option.none, "", false, "gzip", "hash"⟩

/-- Filesystem with the single existing directory `d` and no files. -/
def fsW : FS := ⟨["d"], []⟩

/-- Modelled from the spec: the claim's type-based eligibility test —
a value whose type is string, integer, float, list or mapping. -/
def spec_eligibleTyped : PyVal → Bool
  | .str _ => true
  | .int _ => true
  | .float _ => true
  | .list _ => true
  | .dict _ => true
  | _ => false

/-! Claim theorems. -/

/-- Claim C1 (code_bug): the claim states type-based eligibility, under
which the string argument "hello" is included in the hashed canonical
representation.  The code's filter `a in _OK_JSON` instead tests the
value against a set of type objects, so the string is excluded
(`okJsonMember` returns false, the filtered argument list is empty) and
two invocations differing only in string arguments derive the identical
by-hash name. -/
theorem claim_C1_value_based_filter :
    spec_eligibleTyped (PyVal.str "hello") = true ∧
    okJsonMember (PyVal.str "hello") = Except.ok false ∧
    filterArgsOk [PyVal.str "hello"] = Except.ok [] ∧
    ∀ ctx : Ctx,
      deriveName ctx (PyVal.str "hash") [PyVal.str "hello"] [] =
        deriveName ctx (PyVal.str "hash") [PyVal.str "world"] [] :=
  ⟨rfl, rfl, rfl, fun _ => rfl⟩

/-- Claim C3 (code_bug): the name `__call__` under by-name mode.  The
code appends `.cache.<ext>` before the punctuation strip, so the
trailing underscores survive and the entry basename is
`call__.cache.gz`, not the `call.cache.gz` promised by the claim and by
the code's own comment. -/
theorem claim_C3_strip_after_extension :
    buildCachename "__call__" (PyVal.str "") "gz" = "call__.cache.gz" ∧
    buildCachename "__call__" (PyVal.str "") "gz" ≠ "call.cache.gz" := by
  refine ⟨by decide, by decide⟩

/-- Claim C7 (confirmed): a call with zero positional arguments fails
with IndexError from `args[0]` before any directory resolution, key
derivation or delegation — whatever the configuration, the keyword
arguments and the filesystem. -/
theorem claim_C7_empty_args_indexerror (ctx : Ctx) (cfg : LocalCfg) (fs : FS)
    (kwargs : List (String × PyVal)) :
    method_wrapper ctx cfg fs [] kwargs =
      ⟨.error .indexError, fs.files, [], [], Option.none⟩ := rfl

/-- Claim C2 counterexample: with a valid decoration-time mode and the
call-time override mode='yaml' on a resolvable directory, the operation
fails with the unbound-local error, not with ConfigurationError. -/
theorem claim_C2_calltime_mode_counterexample :
    (method_wrapper ctxW cfgW fsW [PyVal.int 0]
        [("mode", PyVal.str "yaml")]).result = .error .unboundLocal ∧
    PyError.unboundLocal ≠ PyError.configurationError :=
  ⟨rfl, by decide⟩

/-- Claim C2 (amended): only the decoration-time mode is validated — a
decoration mode that is neither by-hash nor by-name fails with
ConfigurationError for every decoration, while an invalid call-time
mode override is not rejected: when caching is active the wrapper fails
with the unbound-local 'name' error instead. -/
theorem claim_C2_mode_validation_amended (m : String)
    (hm1 : m ≠ "hash") (hm2 : m ≠ "method-name") :
    (∀ cd cc fr cf, caching_decorator_setup cd (some m) cc fr cf
        = .error .configurationError) ∧
    (∀ (ctx : Ctx) (cfg : LocalCfg) (fs : FS) (a : PyVal) (rest : List PyVal)
        (kwargs : List (String × PyVal)) (d : String),
      getattrCachedir a = Option.none → noOverrides kwargs →
      cfg.local_cachedir = some d → d ≠ "" → pathExistsFS fs d = true →
      (cfg.local_cache_format = "gzip" ∨ cfg.local_cache_format = "json") →
      (method_wrapper ctx cfg fs (a :: rest)
          (("mode", PyVal.str m) :: kwargs)).result = .error .unboundLocal) := by
  constructor
  · intro cd cc fr cf
    simp [caching_decorator_setup, hm1, hm2]
  · intro ctx cfg fs a rest kwargs d hattr hno hcd hd hex hfmt
    have h1 : lookupKV (("mode", PyVal.str m) :: kwargs) "cachedir" = Option.none := by
      simpa [lookupKV] using hno _ (by simp [overrideKeys])
    have h2 : lookupKV (("mode", PyVal.str m) :: kwargs) "cache_comment" = Option.none := by
      simpa [lookupKV] using hno _ (by simp [overrideKeys])
    have h3 : lookupKV (("mode", PyVal.str m) :: kwargs) "force_refresh" = Option.none := by
      simpa [lookupKV] using hno _ (by simp [overrideKeys])
    have h4 : lookupKV kwargs "mode" = Option.none := hno _ (by simp [overrideKeys])
    have h5 : lookupKV kwargs "cache_format" = Option.none := hno _ (by simp [overrideKeys])
    have h5' : lookupKV (("mode", PyVal.str m) :: kwargs) "cache_format" = Option.none := by
      simpa [lookupKV] using h5
    have hpopm : ∀ dft, popKw "mode" dft (("mode", PyVal.str m) :: kwargs)
        = (PyVal.str m, kwargs) := by
      intro dft
      simp [popKw, lookupKV, List.filter_cons, filter_eq_of_lookupKV_none kwargs _ h4]
    have hd' : pyTruthy (PyVal.str d) = true := by simp [pyTruthy, hd]
    simp only [method_wrapper, hattr, cfgCachedirDefault, hcd,
      popKw_absent _ _ _ h1, popKw_absent _ _ _ h2, popKw_absent _ _ _ h3,
      popKw_absent _ _ _ h5, hpopm, hd', Bool.not_true, Bool.false_eq_true,
      if_false, resolve_cachedir, hex, if_true]
    have hdn : deriveName ctx (PyVal.str m) (a :: rest) kwargs = .ok Option.none := by
      simp [deriveName, pyEqStr, hm1, hm2]
    rcases hfmt with hf | hf <;>
      simp [popKw_absent _ _ _ h5, hf, pyEqStr, hdn]

/-- Witness for claim C2's amended theorem at mode 'yaml'. -/
theorem claim_C2_amended_witness :
    caching_decorator_setup (some "d") (some "yaml") Option.none false "gzip"
        = .error .configurationError ∧
    (method_wrapper ctxW cfgW fsW [PyVal.int 0]
        [("mode", PyVal.str "yaml")]).result = .error .unboundLocal := by
  have h := claim_C2_mode_validation_amended "yaml" (by decide) (by decide)
  exact ⟨h.1 (some "d") Option.none false "gzip",
    h.2 ctxW cfgW fsW (PyVal.int 0) [] [] "d" rfl (fun k _ => rfl) rfl
      (by decide) (by decide) (Or.inl rfl)⟩

/-- Claim C4 counterexample: with no directory anywhere, the wrapper
delegates in pass-through mode with the call-time override mode still
present in the keyword arguments. -/
theorem claim_C4_passthrough_counterexample :
    (method_wrapper ctxW cfgN fsW [PyVal.int 0]
        [("mode", PyVal.str "hash")]).calls
      = [([PyVal.int 0], [("mode", PyVal.str "hash")])] ∧
    lookupKV [("mode", PyVal.str "hash")] "mode" = some (PyVal.str "hash") :=
  ⟨rfl, rfl⟩

/-- Claim C4 (amended): the overrides are stripped before delegation
exactly on the caching path with the directory resolved from kwargs or
decoration — when the receiver lacks the cachedir attribute and the
popped cachedir is truthy, every delegated invocation's kwargs carry
none of the five override keys.  (In pass-through mode the remaining
overrides are delegated unchanged, and with a receiver-bound directory
the cachedir kwarg is delegated too.) -/
theorem claim_C4_strip_amended (ctx : Ctx) (cfg : LocalCfg) (fs : FS)
    (a : PyVal) (rest : List PyVal) (kwargs : List (String × PyVal))
    (hattr : getattrCachedir a = Option.none)
    (htr : pyTruthy (popKw "cachedir" (cfgCachedirDefault cfg) kwargs).1 = true) :
    ∀ c ∈ (method_wrapper ctx cfg fs (a :: rest) kwargs).calls,
      ∀ k ∈ overrideKeys, lookupKV c.2 k = Option.none := by
  intro c hc k hk
  rcases method_wrapper_calls_shape ctx cfg fs a rest kwargs hattr htr with hsh | hsh
  · rw [hsh] at hc
    cases hc
  · rw [hsh] at hc
    rcases List.mem_singleton.mp hc with rfl
    exact strip5_lookup kwargs k hk

/-- Witness for claim C4's amended theorem: a miss on the caching path
delegates exactly once, and the delegated kwargs of that call have no
mode key left. -/
theorem claim_C4_amended_witness :
    lookupKV [("extra", PyVal.int 7)] "mode" = Option.none := by
  have hcalls : (method_wrapper ctxW cfgW fsW [PyVal.int 0, PyVal.str "x"]
      [("mode", PyVal.str "method-name"), ("extra", PyVal.int 7)]).calls
      = [([PyVal.int 0, PyVal.str "x"], [("extra", PyVal.int 7)])] := by
    with_unfolding_all rfl
  have hmem : (([PyVal.int 0, PyVal.str "x"], [("extra", PyVal.int 7)]) :
      List PyVal × List (String × PyVal)) ∈
      (method_wrapper ctxW cfgW fsW [PyVal.int 0, PyVal.str "x"]
        [("mode", PyVal.str "method-name"), ("extra", PyVal.int 7)]).calls := by
    rw [hcalls]
    exact List.mem_singleton.mpr rfl
  exact claim_C4_strip_amended ctxW cfgW fsW (PyVal.int 0) [PyVal.str "x"]
    [("mode", PyVal.str "method-name"), ("extra", PyVal.int 7)] rfl (by decide)
    _ hmem "mode" (by simp [overrideKeys])

/-- Claim C5 (confirmed): on a cache miss or forced refresh, when the
computed result is not JSON-representable the TypeError from the
encoder is propagated and no file is left at the entry path; the fresh
result is returned exactly when encoding succeeds, and then the entry
holds it. -/
theorem claim_C5_serialization_cleanup (ctx : Ctx) (fs : FS) (p : String)
    (fr : Bool) (args : List PyVal) (kwargs : List (String × PyVal))
    (hmiss : pathExistsFS fs p = false ∨ fr = true) :
    (serializable (ctx.method args kwargs) = false →
      (cacheStep ctx fs p fr args kwargs).result = .error .typeError ∧
      lookupKV (cacheStep ctx fs p fr args kwargs).files p = Option.none) ∧
    (serializable (ctx.method args kwargs) = true →
      (cacheStep ctx fs p fr args kwargs).result = .ok (ctx.method args kwargs) ∧
      lookupKV (cacheStep ctx fs p fr args kwargs).files p
        = some (ctx.method args kwargs)) := by
  have hcond : (pathExistsFS fs p && !fr) = false := by
    rcases hmiss with h | h <;> simp [h]
  constructor
  · intro hser
    simp only [cacheStep, hcond, Bool.false_eq_true, if_false, hser]
    exact ⟨trivial, lookupKV_removeFile_self fs.files p⟩
  · intro hser
    simp only [cacheStep, hcond, Bool.false_eq_true, if_false, hser, if_true]
    exact ⟨trivial, lookupKV_insertFile_self fs.files p (ctx.method args kwargs)⟩

/-- Method context whose computation returns a value the JSON encoder
rejects (a generic Python object). -/
def ctxBad : Ctx := ⟨"foo", fun _ _ => PyVal.obj Option.none "fn", fun s => s, "/cwd"⟩

/-- Witness for claim C5 at a concrete miss: the failing write cleans
up the entry and propagates TypeError. -/
theorem claim_C5_witness :
    (cacheStep ctxBad fsW "d/x.cache.gz" false [] []).result = .error .typeError ∧
    lookupKV (cacheStep ctxBad fsW "d/x.cache.gz" false [] []).files "d/x.cache.gz"
      = Option.none :=
  (claim_C5_serialization_cleanup ctxBad fsW "d/x.cache.gz" false [] []
    (Or.inl (by decide))).1 (by decide)

/-- Claim C9 (confirmed): when the resolved directory exists neither as
given nor joined to the current working directory, the call fails with
DirectoryError and no cache file is read, written or computed. -/
theorem claim_C9_missing_directory (ctx : Ctx) (cfg : LocalCfg) (fs : FS)
    (a : PyVal) (rest : List PyVal) (kwargs : List (String × PyVal)) (d : String)
    (hattr : getattrCachedir a = Option.none)
    (hno : noOverrides kwargs)
    (hcd : cfg.local_cachedir = some d)
    (hd : d ≠ "")
    (hex1 : pathExistsFS fs d = false)
    (hex2 : pathExistsFS fs (ospath_join ctx.cwd d) = false) :
    method_wrapper ctx cfg fs (a :: rest) kwargs =
      ⟨.error .directoryError, fs.files, [], [], Option.none⟩ := by
  have h1 : lookupKV kwargs "cachedir" = Option.none := hno _ (by simp [overrideKeys])
  have h2 : lookupKV kwargs "cache_comment" = Option.none := hno _ (by simp [overrideKeys])
  have h3 : lookupKV kwargs "force_refresh" = Option.none := hno _ (by simp [overrideKeys])
  have h4 : lookupKV kwargs "mode" = Option.none := hno _ (by simp [overrideKeys])
  have hd' : pyTruthy (PyVal.str d) = true := by simp [pyTruthy, hd]
  simp only [method_wrapper, hattr, cfgCachedirDefault, hcd,
    popKw_absent _ _ _ h1, popKw_absent _ _ _ h2, popKw_absent _ _ _ h3,
    popKw_absent _ _ _ h4, hd', Bool.not_true, Bool.false_eq_true, if_false,
    resolve_cachedir, hex1, hex2]

/-- Witness for claim C9 on an empty filesystem. -/
theorem claim_C9_witness :
    method_wrapper ctxW cfgW ⟨[], []⟩ [PyVal.int 0] [("extra", PyVal.int 7)] =
      ⟨.error .directoryError, [], [], [], Option.none⟩ :=
  claim_C9_missing_directory ctxW cfgW ⟨[], []⟩ (PyVal.int 0) []
    [("extra", PyVal.int 7)] "d" rfl
    (by intro k hk; fin_cases hk <;> rfl) rfl (by decide) (by decide) (by decide)

/-- Claim C10 (confirmed): with force-refresh in effect and a
resolvable existing directory, the computation is delegated exactly
once, nothing is read from the cache, and the entry path afterwards
holds the fresh result — whether or not an entry existed before. -/
theorem claim_C10_force_refresh (ctx : Ctx) (cfg : LocalCfg) (fs : FS)
    (a : PyVal) (rest : List PyVal) (kwargs : List (String × PyVal))
    (d ext nm : String)
    (hattr : getattrCachedir a = Option.none)
    (hno : noOverrides kwargs)
    (hcd : cfg.local_cachedir = some d)
    (hd : d ≠ "")
    (hex : pathExistsFS fs d = true)
    (hfmt : cfg.local_cache_format = "gzip" ∧ ext = "gz" ∨
            cfg.local_cache_format = "json" ∧ ext = "json")
    (hname : deriveName ctx
        (PyVal.str (if cfg.local_mode = "" then "hash" else cfg.local_mode))
        (a :: rest) kwargs = .ok (some nm))
    (hfr : cfg.local_force_refresh = true)
    (hser : serializable (ctx.method (a :: rest) kwargs) = true) :
    (method_wrapper ctx cfg fs (a :: rest) kwargs).result
        = .ok (ctx.method (a :: rest) kwargs) ∧
    (method_wrapper ctx cfg fs (a :: rest) kwargs).calls = [(a :: rest, kwargs)] ∧
    (method_wrapper ctx cfg fs (a :: rest) kwargs).reads = [] ∧
    lookupKV (method_wrapper ctx cfg fs (a :: rest) kwargs).files
        (ospath_join d (buildCachename nm (.str cfg.local_cache_comment) ext))
      = some (ctx.method (a :: rest) kwargs) := by
  rw [method_wrapper_clean ctx cfg fs a rest kwargs d ext nm hattr hno hcd hd hex
    hfmt hname, hfr]
  simp only [cacheStep, Bool.not_true, Bool.and_false, Bool.false_eq_true,
    if_false, hser, if_true]
  exact ⟨trivial, trivial, trivial,
    lookupKV_insertFile_self fs.files _ (ctx.method (a :: rest) kwargs)⟩

/-- Witness for claim C10: a forced refresh over an existing entry
overwrites it with the fresh result and never reads the old one. -/
theorem claim_C10_witness :
    (method_wrapper ctxW
        ⟨some "d", "", true, "gzip", "method-name"⟩
        ⟨["d"], [("d/foo.cache.gz", PyVal.str "stale")]⟩
        [PyVal.int 0] []).result = .ok (PyVal.str "res") ∧
    (method_wrapper ctxW
        ⟨some "d", "", true, "gzip", "method-name"⟩
        ⟨["d"], [("d/foo.cache.gz", PyVal.str "stale")]⟩
        [PyVal.int 0] []).reads = [] ∧
    lookupKV (method_wrapper ctxW
        ⟨some "d", "", true, "gzip", "method-name"⟩
        ⟨["d"], [("d/foo.cache.gz", PyVal.str "stale")]⟩
        [PyVal.int 0] []).files "d/foo.cache.gz" = some (PyVal.str "res") := by
  have h := claim_C10_force_refresh ctxW
    ⟨some "d", "", true, "gzip", "method-name"⟩
    ⟨["d"], [("d/foo.cache.gz", PyVal.str "stale")]⟩
    (PyVal.int 0) [] [] "d" "gz" "foo" rfl (fun k _ => rfl) rfl
    (by decide) (by decide) (Or.inl ⟨rfl, rfl⟩) rfl rfl (by decide)
  refine ⟨h.1, h.2.2.1, ?_⟩
  have h3 := h.2.2.2
  have e1 : ospath_join "d" (buildCachename "foo"
      (PyVal.str (⟨some "d", "", true, "gzip", "method-name"⟩ : LocalCfg).local_cache_comment)
      "gz") = "d/foo.cache.gz" := by with_unfolding_all rfl
  have e2 : ctxW.method [PyVal.int 0] [] = PyVal.str "res" := rfl
  rw [e1, e2] at h3
  exact h3

/-- Claim C6 (confirmed): a call that misses persists the computed
JSON-representable result, and an identical call immediately after hits
and returns a value equal to the originally computed one without
delegating the computation again — for both the compressed and plain
formats. -/
theorem claim_C6_roundtrip (ctx : Ctx) (cfg : LocalCfg) (fs : FS)
    (a : PyVal) (rest : List PyVal) (kwargs : List (String × PyVal))
    (d ext : String)
    (hattr : getattrCachedir a = Option.none)
    (hno : noOverrides kwargs)
    (hcd : cfg.local_cachedir = some d)
    (hd : d ≠ "")
    (hdir : fs.dirs.contains d = true)
    (hfmt : cfg.local_cache_format = "gzip" ∧ ext = "gz" ∨
            cfg.local_cache_format = "json" ∧ ext = "json")
    (hmode : cfg.local_mode = "method-name")
    (hfr : cfg.local_force_refresh = false)
    (hser : serializable (ctx.method (a :: rest) kwargs) = true)
    (hmissing : pathExistsFS fs
      (ospath_join d (buildCachename ctx.methodName
        (PyVal.str cfg.local_cache_comment) ext)) = false) :
    (method_wrapper ctx cfg fs (a :: rest) kwargs).result
        = .ok (ctx.method (a :: rest) kwargs) ∧
    (method_wrapper ctx cfg
        ⟨fs.dirs, (method_wrapper ctx cfg fs (a :: rest) kwargs).files⟩
        (a :: rest) kwargs).result = .ok (ctx.method (a :: rest) kwargs) ∧
    (method_wrapper ctx cfg
        ⟨fs.dirs, (method_wrapper ctx cfg fs (a :: rest) kwargs).files⟩
        (a :: rest) kwargs).calls = [] := by
  have hmem : d ∈ fs.dirs := by simpa using hdir
  have hex1 : pathExistsFS fs d = true := by
    simp [pathExistsFS]
    exact Or.inl hmem
  have hname : deriveName ctx
      (PyVal.str (if cfg.local_mode = "" then "hash" else cfg.local_mode))
      (a :: rest) kwargs = .ok (some ctx.methodName) := by
    rw [hmode]; rfl
  have hw1 := method_wrapper_clean ctx cfg fs a rest kwargs d ext ctx.methodName
    hattr hno hcd hd hex1 hfmt hname
  rw [hfr] at hw1
  have hstep1 : cacheStep ctx fs
      (ospath_join d (buildCachename ctx.methodName
        (PyVal.str cfg.local_cache_comment) ext)) false (a :: rest) kwargs =
      ⟨.ok (ctx.method (a :: rest) kwargs),
       insertFile fs.files
         (ospath_join d (buildCachename ctx.methodName
           (PyVal.str cfg.local_cache_comment) ext))
         (ctx.method (a :: rest) kwargs),
       [(a :: rest, kwargs)], [],
       some (ospath_join d (buildCachename ctx.methodName
         (PyVal.str cfg.local_cache_comment) ext))⟩ := by
    simp only [cacheStep, hmissing, Bool.false_and, Bool.false_eq_true, if_false,
      hser, if_true]
  rw [hw1, hstep1]
  have hex2 : pathExistsFS
      ⟨fs.dirs, insertFile fs.files
        (ospath_join d (buildCachename ctx.methodName
          (PyVal.str cfg.local_cache_comment) ext))
        (ctx.method (a :: rest) kwargs)⟩ d = true := by
    simp [pathExistsFS]
    exact Or.inl hmem
  have hw2 := method_wrapper_clean ctx cfg
    ⟨fs.dirs, insertFile fs.files
      (ospath_join d (buildCachename ctx.methodName
        (PyVal.str cfg.local_cache_comment) ext))
      (ctx.method (a :: rest) kwargs)⟩
    a rest kwargs d ext ctx.methodName hattr hno hcd hd hex2 hfmt hname
  rw [hfr] at hw2
  rw [hw2]
  have hexp : pathExistsFS
      ⟨fs.dirs, insertFile fs.files
        (ospath_join d (buildCachename ctx.methodName
          (PyVal.str cfg.local_cache_comment) ext))
        (ctx.method (a :: rest) kwargs)⟩
      (ospath_join d (buildCachename ctx.methodName
        (PyVal.str cfg.local_cache_comment) ext)) = true := by
    simp [pathExistsFS, lookupKV_insertFile_self]
  simp only [cacheStep, hexp, Bool.not_false, Bool.true_and, if_true,
    lookupKV_insertFile_self]
  refine ⟨?_, ?_, ?_⟩ <;> trivial

/-- Decoration locals selecting by-name mode over directory `d`. -/
def cfgM : LocalCfg := ⟨some "d", "", false, "gzip", "method-name"⟩

/-- Witness for claim C6: miss then hit of the same call on the
fixture context. -/
theorem claim_C6_witness :
    (method_wrapper ctxW cfgM fsW [PyVal.int 0] []).result
        = .ok (ctxW.method [PyVal.int 0] []) ∧
    (method_wrapper ctxW cfgM
        ⟨fsW.dirs, (method_wrapper ctxW cfgM fsW [PyVal.int 0] []).files⟩
        [PyVal.int 0] []).result = .ok (ctxW.method [PyVal.int 0] []) ∧
    (method_wrapper ctxW cfgM
        ⟨fsW.dirs, (method_wrapper ctxW cfgM fsW [PyVal.int 0] []).files⟩
        [PyVal.int 0] []).calls = [] :=
  claim_C6_roundtrip ctxW cfgM fsW (PyVal.int 0) [] [] "d" "gz" rfl
    (fun k _ => rfl) rfl (by decide) (by decide) (Or.inl ⟨rfl, rfl⟩) rfl rfl
    (by decide) (by with_unfolding_all rfl)

/-- Claim C8 (confirmed): the mapping from invocation, mode, comment
and format to the entry path is deterministic — two wrapper runs on the
same arguments and configuration compose the same entry path, even
under different force-refresh settings and different stored cache
contents (same directory set and same file-name set). -/
theorem claim_C8_path_determinism (ctx : Ctx) (cfg : LocalCfg) (b1 b2 : Bool)
    (fs1 fs2 : FS) (args : List PyVal) (kwargs : List (String × PyVal))
    (hdirs : fs1.dirs = fs2.dirs)
    (hkeys : fs1.files.map Prod.fst = fs2.files.map Prod.fst) :
    (method_wrapper ctx { cfg with local_force_refresh := b1 } fs1 args kwargs).path
      = (method_wrapper ctx { cfg with local_force_refresh := b2 } fs2 args kwargs).path := by
  have hres : ∀ v, resolve_cachedir ctx fs1 v = resolve_cachedir ctx fs2 v :=
    fun v => resolve_cachedir_congr ctx fs1 fs2 v hdirs hkeys
  have hup : ∀ b, cfgCachedirDefault { cfg with local_force_refresh := b }
      = cfgCachedirDefault cfg := fun _ => rfl
  have hpc : ∀ b, ({ cfg with local_force_refresh := b } : LocalCfg).local_cache_comment
      = cfg.local_cache_comment := fun _ => rfl
  have hpf : ∀ b, ({ cfg with local_force_refresh := b } : LocalCfg).local_force_refresh
      = b := fun _ => rfl
  have hpm : ∀ b, ({ cfg with local_force_refresh := b } : LocalCfg).local_mode
      = cfg.local_mode := fun _ => rfl
  have hpt : ∀ b, ({ cfg with local_force_refresh := b } : LocalCfg).local_cache_format
      = cfg.local_cache_format := fun _ => rfl
  cases args with
  | nil => rfl
  | cons a rest =>
    simp only [method_wrapper, hup, hpc, hpf, hpm, hpt]
    cases hga : getattrCachedir a with
    | some d0 =>
      simp only
      by_cases htr : pyTruthy (PyVal.str d0) = true
      · simp only [htr, Bool.not_true, Bool.false_eq_true, if_false]
        rcases hq2 : popKw "cache_comment" (PyVal.str cfg.local_cache_comment) kwargs with ⟨ccV, kw2⟩
        rcases hq3a : popKw "force_refresh" (PyVal.bool b1) kw2 with ⟨fr1, kw3a⟩
        rcases hq3b : popKw "force_refresh" (PyVal.bool b2) kw2 with ⟨fr2, kw3b⟩
        have hkw3 : kw3b = kw3a := by
          have ha := popKw_snd_eq_dropKw "force_refresh" (PyVal.bool b1) kw2
          rw [hq3a] at ha
          have hb := popKw_snd_eq_dropKw "force_refresh" (PyVal.bool b2) kw2
          rw [hq3b] at hb
          have ha2 : kw3a = dropKw "force_refresh" kw2 := ha
          have hb2 : kw3b = dropKw "force_refresh" kw2 := hb
          rw [ha2, hb2]
        subst hkw3
        rcases hq4 : popKw "mode"
            (PyVal.str (if cfg.local_mode = "" then "hash" else cfg.local_mode)) kw3b
          with ⟨modeV, kw4⟩
        rcases hq5 : popKw "cache_format" (PyVal.str cfg.local_cache_format) kw4 with ⟨fmtV, kw5⟩
        simp only [hq2, hq3a, hq3b, hq4, hq5, hres]
        cases hr : resolve_cachedir ctx fs2 (PyVal.str d0) with
        | error e => rfl
        | ok d =>
          by_cases hj : pyEqStr fmtV "json" = true
          · simp only [hj, if_true]
            cases hdn : deriveName ctx modeV (a :: rest) kw5 with
            | error e => rfl
            | ok o =>
              cases o with
              | none => rfl
              | some nm => simp only [cacheStep_path]
          · simp only [hj, if_false, Bool.false_eq_true]
            by_cases hg : pyEqStr fmtV "gzip" = true
            · simp only [hg, if_true]
              cases hdn : deriveName ctx modeV (a :: rest) kw5 with
              | error e => rfl
              | ok o =>
                cases o with
                | none => rfl
                | some nm => simp only [cacheStep_path]
            · simp only [hg, if_false, Bool.false_eq_true]
      · simp only [Bool.not_eq_true] at htr
        simp only [htr, Bool.not_false, if_true]
    | none =>
      simp only
      rcases hq1 : popKw "cachedir" (cfgCachedirDefault cfg) kwargs with ⟨cdv, kw1⟩
      simp only [hq1]
      by_cases htr : pyTruthy cdv = true
      · simp only [htr, Bool.not_true, Bool.false_eq_true, if_false]
        rcases hq2 : popKw "cache_comment" (PyVal.str cfg.local_cache_comment) kw1 with ⟨ccV, kw2⟩
        rcases hq3a : popKw "force_refresh" (PyVal.bool b1) kw2 with ⟨fr1, kw3a⟩
        rcases hq3b : popKw "force_refresh" (PyVal.bool b2) kw2 with ⟨fr2, kw3b⟩
        have hkw3 : kw3b = kw3a := by
          have ha := popKw_snd_eq_dropKw "force_refresh" (PyVal.bool b1) kw2
          rw [hq3a] at ha
          have hb := popKw_snd_eq_dropKw "force_refresh" (PyVal.bool b2) kw2
          rw [hq3b] at hb
          have ha2 : kw3a = dropKw "force_refresh" kw2 := ha
          have hb2 : kw3b = dropKw "force_refresh" kw2 := hb
          rw [ha2, hb2]
        subst hkw3
        rcases hq4 : popKw "mode"
            (PyVal.str (if cfg.local_mode = "" then "hash" else cfg.local_mode)) kw3b
          with ⟨modeV, kw4⟩
        rcases hq5 : popKw "cache_format" (PyVal.str cfg.local_cache_format) kw4 with ⟨fmtV, kw5⟩
        simp only [hq2, hq3a, hq3b, hq4, hq5, hres]
        cases hr : resolve_cachedir ctx fs2 cdv with
        | error e => rfl
        | ok d =>
          by_cases hj : pyEqStr fmtV "json" = true
          · simp only [hj, if_true]
            cases hdn : deriveName ctx modeV (a :: rest) kw5 with
            | error e => rfl
            | ok o =>
              cases o with
              | none => rfl
              | some nm => simp only [cacheStep_path]
          · simp only [hj, if_false, Bool.false_eq_true]
            by_cases hg : pyEqStr fmtV "gzip" = true
            · simp only [hg, if_true]
              cases hdn : deriveName ctx modeV (a :: rest) kw5 with
              | error e => rfl
              | ok o =>
                cases o with
                | none => rfl
                | some nm => simp only [cacheStep_path]
            · simp only [hg, if_false, Bool.false_eq_true]
      · simp only [Bool.not_eq_true] at htr
        simp only [htr, Bool.not_false, if_true]

/-- Witness for claim C8: same invocation, flipped force-refresh,
distinct but same-shaped filesystems, equal paths. -/
theorem claim_C8_witness :
    (method_wrapper ctxW { cfgW with local_force_refresh := false } fsW
        [PyVal.int 0] []).path
      = (method_wrapper ctxW { cfgW with local_force_refresh := true }
          ⟨["d"], []⟩ [PyVal.int 0] []).path :=
  claim_C8_path_determinism ctxW cfgW false true fsW ⟨["d"], []⟩
    [PyVal.int 0] [] rfl rfl

end SimpleCaching
